import Mathlib

/-!
Verification model of the CASSON expression engine (`function.py`,
`syntax_parser.py`): the Python AST node classes, numeric evaluation,
symbolic differentiation, simplification, infix rendering, the
tokenizer and the precedence-climbing parser.

Modelling conventions:
* Python `int` is `Int`; a Python `float` is modelled as an exact
  rational.  Arithmetic on the float tag is exact where Python rounds
  to the nearest IEEE-754 double; no theorem below depends on a value
  where that rounding differs.  `math.pi` and `math.e` are the exact
  rationals denoted by those IEEE-754 doubles.
* Transcendental library calls (`math.sin`, `math.log`, ...) whose
  results are irrational are modelled as the failure `notModeled`; the
  special arguments with exactly representable results are computed
  exactly.  `math.abs` does not exist in Python, so `Abs.evaluate`
  always raises `AttributeError`; the model mirrors that.
* Python exceptions travel on the `Except` error channel.
* The recursions of the tokenizer and parser are bounded by an explicit
  fuel argument (a model artifact: Python recurses on the native stack);
  the fuel supplied is always sufficient for terminating runs.
-/

namespace Casson

/-- Python numbers: the `int` / `float` distinction of the values stored in
`Number.symbol` (`parse_primitive` creates `Number(int(...))` or
`Number(float(...))`).  The float payload is the exact rational value. -/
inductive PyNum where
  | i : Int → PyNum
  | f : ℚ → PyNum
deriving DecidableEq, Repr

/-- The rational value of a Python number (used by Python `==`, `<`, `>`
on numbers, which compare exact values across the int/float divide). -/
def PyNum.toQ : PyNum → ℚ
  | .i n => (n : ℚ)
  | .f q => q

/-- Python `==` on numbers: exact value comparison, `0 == 0.0` is `True`. -/
def pyNumEq (a b : PyNum) : Bool := a.toQ = b.toQ

/-- Python exceptions that the evaluator can raise, plus the model-only
failure `notModeled` for library results that are irrational doubles. -/
inductive EvalErr where
  | unboundVariable   -- AssertionError "Cannot evaluate unbound variable"
  | zeroDivision      -- ZeroDivisionError
  | domainError       -- ValueError: math domain error (log, sqrt, asin)
  | attributeError    -- AttributeError: module math has no attribute abs
  | notModeled        -- model artifact: an irrational IEEE-754 result
deriving DecidableEq, Repr

/-- Python `+` on numbers: int when both are ints, float otherwise. -/
def pyAdd : PyNum → PyNum → PyNum
  | .i a, .i b => .i (a + b)
  | a, b => .f (a.toQ + b.toQ)

/-- Python binary `-` on numbers. -/
def pySub : PyNum → PyNum → PyNum
  | .i a, .i b => .i (a - b)
  | a, b => .f (a.toQ - b.toQ)

/-- Python `*` on numbers. -/
def pyMul : PyNum → PyNum → PyNum
  | .i a, .i b => .i (a * b)
  | a, b => .f (a.toQ * b.toQ)

/-- Python `/` on numbers: true division, always a float, raising
`ZeroDivisionError` on a zero divisor (for ints and floats alike). -/
def pyDiv (a b : PyNum) : Except EvalErr PyNum :=
  if b.toQ = 0 then .error .zeroDivision else .ok (.f (a.toQ / b.toQ))

/-- Python `pow`: `int ** int` with nonnegative exponent is an int;
a negative exponent gives a float (`ZeroDivisionError` on base 0);
with a float anywhere the result is a float.  A non-integral exponent
yields an irrational double in general (or a complex number for a
negative base): `notModeled`. -/
def pyPow : PyNum → PyNum → Except EvalErr PyNum
  | .i a, .i b =>
    if 0 ≤ b then .ok (.i (a ^ b.toNat))
    else if a = 0 then .error .zeroDivision
    else .ok (.f ((a : ℚ) ^ b))
  | a, b =>
    let qa := a.toQ
    let qb := b.toQ
    if qb.den = 1 then
      if 0 ≤ qb.num then .ok (.f (qa ^ qb.num.toNat))
      else if qa = 0 then .error .zeroDivision
      else .ok (.f (qa ^ qb.num))
    else
      if qa = 0 then
        if 0 < qb then .ok (.f 0) else .error .zeroDivision
      else .error .notModeled

/-- `math.log`: domain error on nonpositive arguments, exactly `0.0` at 1,
irrational otherwise. -/
def pyLn (v : PyNum) : Except EvalErr PyNum :=
  if v.toQ ≤ 0 then .error .domainError
  else if v.toQ = 1 then .ok (.f 0)
  else .error .notModeled

/-- `math.sin`: exactly `0.0` at 0, irrational otherwise. -/
def pySin (v : PyNum) : Except EvalErr PyNum :=
  if v.toQ = 0 then .ok (.f 0) else .error .notModeled

/-- `math.cos`: exactly `1.0` at 0, irrational otherwise. -/
def pyCos (v : PyNum) : Except EvalErr PyNum :=
  if v.toQ = 0 then .ok (.f 1) else .error .notModeled

/-- `math.tan`: exactly `0.0` at 0, irrational otherwise. -/
def pyTan (v : PyNum) : Except EvalErr PyNum :=
  if v.toQ = 0 then .ok (.f 0) else .error .notModeled

/-- `1/math.cos(x)` (`Secant.evaluate`): exactly `1.0` at 0. -/
def pySec (v : PyNum) : Except EvalErr PyNum :=
  if v.toQ = 0 then .ok (.f 1) else .error .notModeled

/-- `1/math.sin(x)` (`Cosecant.evaluate`): `ZeroDivisionError` at 0. -/
def pyCsc (v : PyNum) : Except EvalErr PyNum :=
  if v.toQ = 0 then .error .zeroDivision else .error .notModeled

/-- `1/math.tan(x)` (`Cotangent.evaluate`): `ZeroDivisionError` at 0. -/
def pyCot (v : PyNum) : Except EvalErr PyNum :=
  if v.toQ = 0 then .error .zeroDivision else .error .notModeled

/-- `math.sqrt`: domain error on negatives, exact on squares of rationals,
irrational otherwise. -/
def pySqrt (v : PyNum) : Except EvalErr PyNum :=
  let q := v.toQ
  if q < 0 then .error .domainError
  else
    let n := q.num.toNat
    let d := q.den
    if Nat.sqrt n * Nat.sqrt n = n ∧ Nat.sqrt d * Nat.sqrt d = d then
      .ok (.f ((Nat.sqrt n : ℚ) / (Nat.sqrt d : ℚ)))
    else .error .notModeled

/-- `math.asin`: domain error outside `[-1, 1]`, exactly `0.0` at 0,
irrational otherwise. -/
def pyArcsin (v : PyNum) : Except EvalErr PyNum :=
  let q := v.toQ
  if q < -1 ∨ 1 < q then .error .domainError
  else if q = 0 then .ok (.f 0)
  else .error .notModeled

/-- The AST node classes of `function.py`.  The fixed arities of the
constructors encode the `[min_args, max_args]` assertion of
`Function.__init__`. -/
inductive Node where
  | number (v : PyNum)
  | var (s : String)
  | add (x y : Node)
  | sub (x y : Node)
  | mul (x y : Node)
  | div (x y : Node)
  | pow (x y : Node)
  | neg (x : Node)
  | ln (x : Node)
  | sin (x : Node)
  | cos (x : Node)
  | tan (x : Node)
  | sec (x : Node)
  | csc (x : Node)
  | cot (x : Node)
  | sqrt (x : Node)
  | abs (x : Node)
  | sign (x : Node)
  | arcsin (x : Node)
deriving DecidableEq, Repr

/-- The `symbol` attribute: a number for `Number`, the variable name for
`Variable`, the operator/function surface symbol otherwise. -/
inductive PySym where
  | numS (v : PyNum)
  | strS (s : String)
deriving DecidableEq, Repr

def Node.symbol : Node → PySym
  | .number v => .numS v
  | .var s => .strS s
  | .add _ _ => .strS "+"
  | .sub _ _ => .strS "-"
  | .mul _ _ => .strS "*"
  | .div _ _ => .strS "/"
  | .pow _ _ => .strS "^"
  | .neg _ => .strS "-"
  | .ln _ => .strS "ln"
  | .sin _ => .strS "sin"
  | .cos _ => .strS "cos"
  | .tan _ => .strS "tan"
  | .sec _ => .strS "sec"
  | .csc _ => .strS "csc"
  | .cot _ => .strS "cot"
  | .sqrt _ => .strS "sqrt"
  | .abs _ => .strS "abs"
  | .sign _ => .strS "sign"
  | .arcsin _ => .strS "arcsin"

def Node.children : Node → List Node
  | .number _ => []
  | .var _ => []
  | .add x y => [x, y]
  | .sub x y => [x, y]
  | .mul x y => [x, y]
  | .div x y => [x, y]
  | .pow x y => [x, y]
  | .neg x => [x]
  | .ln x => [x]
  | .sin x => [x]
  | .cos x => [x]
  | .tan x => [x]
  | .sec x => [x]
  | .csc x => [x]
  | .cot x => [x]
  | .sqrt x => [x]
  | .abs x => [x]
  | .sign x => [x]
  | .arcsin x => [x]

/-- Python `Node.__eq__`: `self.symbol == other.symbol and
self.children == other.children`.  Two nodes of different classes are
never equal: every pair of distinct classes differs in symbol or in
child count (`Subtract` and `Negate` share the symbol `"-"` but have
arities 2 and 1), and a number symbol never equals a string symbol.
Numbers compare by exact value, so `Number(0) == Number(0.0)`. -/
def nodeEq : Node → Node → Bool
  | .number a, .number b => pyNumEq a b
  | .var a, .var b => a = b
  | .add x y, .add x' y' => nodeEq x x' && nodeEq y y'
  | .sub x y, .sub x' y' => nodeEq x x' && nodeEq y y'
  | .mul x y, .mul x' y' => nodeEq x x' && nodeEq y y'
  | .div x y, .div x' y' => nodeEq x x' && nodeEq y y'
  | .pow x y, .pow x' y' => nodeEq x x' && nodeEq y y'
  | .neg x, .neg x' => nodeEq x x'
  | .ln x, .ln x' => nodeEq x x'
  | .sin x, .sin x' => nodeEq x x'
  | .cos x, .cos x' => nodeEq x x'
  | .tan x, .tan x' => nodeEq x x'
  | .sec x, .sec x' => nodeEq x x'
  | .csc x, .csc x' => nodeEq x x'
  | .cot x, .cot x' => nodeEq x x'
  | .sqrt x, .sqrt x' => nodeEq x x'
  | .abs x, .abs x' => nodeEq x x'
  | .sign x, .sign x' => nodeEq x x'
  | .arcsin x, .arcsin x' => nodeEq x x'
  | _, _ => false

instance {e a : Type} [DecidableEq e] [DecidableEq a] : DecidableEq (Except e a) := fun x y =>
  match x, y with
  | .error u, .error v =>
    if h : u = v then isTrue (by rw [h]) else isFalse (fun hc => h (Except.error.inj hc))
  | .ok u, .ok v =>
    if h : u = v then isTrue (by rw [h]) else isFalse (fun hc => h (Except.ok.inj hc))
  | .error _, .ok _ => isFalse (fun hc => Except.noConfusion hc)
  | .ok _, .error _ => isFalse (fun hc => Except.noConfusion hc)

/-- `NUMBER_0`. -/
def NUMBER0 : Node := .number (.i 0)
/-- `NUMBER_1`. -/
def NUMBER1 : Node := .number (.i 1)
/-- `NUMBER_2`. -/
def NUMBER2 : Node := .number (.i 2)

/-- A caller-supplied binding environment (a Python dict). -/
abbrev Bindings := List (String × PyNum)

/-- `math.pi`, exactly, as the IEEE-754 double Python stores. -/
def piQ : ℚ := 884279719003555 / 281474976710656

/-- `math.e`, exactly, as the IEEE-754 double Python stores. -/
def eQ : ℚ := 6121026514868073 / 2251799813685248

def lookupBinding : Bindings → String → Option PyNum
  | [], _ => none
  | (k, v) :: rest, s => if k = s then some v else lookupBinding rest s

/-- Lookup in `bindings | default_bindings`: the dict-merge puts
`default_bindings` on the right, so the built-ins `Pi` and `E` override
any same-named caller binding. -/
def lookupMerged (b : Bindings) (s : String) : Option PyNum :=
  if s = "Pi" then some (.f piQ)
  else if s = "E" then some (.f eQ)
  else lookupBinding b s

/-- `evaluate`: the per-class `evaluate` methods of `function.py`.
Children are evaluated left to right; the first exception aborts. -/
def evaluate : Node → Bindings → Except EvalErr PyNum
  | .number v, _ => .ok v
  | .var s, b =>
    match lookupMerged b s with
    | some v => .ok v
    | none => .error .unboundVariable
  | .add x y, b => do
    let a ← evaluate x b
    let c ← evaluate y b
    return pyAdd a c
  | .sub x y, b => do
    let a ← evaluate x b
    let c ← evaluate y b
    return pySub a c
  | .mul x y, b => do
    let a ← evaluate x b
    let c ← evaluate y b
    return pyMul a c
  | .div x y, b => do
    let a ← evaluate x b
    let c ← evaluate y b
    pyDiv a c
  | .pow x y, b => do
    let a ← evaluate x b
    let c ← evaluate y b
    pyPow a c
  | .neg x, b => do
    let a ← evaluate x b
    return pyMul (.i (-1)) a
  | .ln x, b => do pyLn (← evaluate x b)
  | .sin x, b => do pySin (← evaluate x b)
  | .cos x, b => do pyCos (← evaluate x b)
  | .tan x, b => do pyTan (← evaluate x b)
  | .sec x, b => do pySec (← evaluate x b)
  | .csc x, b => do pyCsc (← evaluate x b)
  | .cot x, b => do pyCot (← evaluate x b)
  | .sqrt x, b => do pySqrt (← evaluate x b)
  | .abs _, _ => .error .attributeError
  | .sign x, b => do
    let v ← evaluate x b
    return if 0 < v.toQ then .i 1 else if v.toQ < 0 then .i (-1) else .i 0
  | .arcsin x, b => do pyArcsin (← evaluate x b)

/-- `isinstance(child, Number) and isinstance(child.symbol, float)`: the
per-child test of the constant-folding guard in `Function.simplify`.
Note that it is `False` for a `Number` holding a Python `int`. -/
def isFloatNumber : Node → Bool
  | .number (.f _) => true
  | _ => false

/-- Shape test used for the `isinstance(self, Number)` checks that follow
the `super().simplify()` calls. -/
def isNumber : Node → Bool
  | .number _ => true
  | _ => false

/-- `isinstance(x, Negate)`. -/
def isNegNode : Node → Bool
  | .neg _ => true
  | _ => false

/-- `x.children[0]` of a `Negate` node (identity elsewhere; only read
behind an `isNegNode` guard). -/
def negInner : Node → Node
  | .neg z => z
  | t => t

/-- The folding step of `Function.simplify`, applied to a node whose
children are already simplified: if every child is a `Number` holding a
float, return `Number(self.evaluate())` (empty environment), else return
the node unchanged. -/
def functionSimplifyStep (t : Node) : Except EvalErr Node :=
  if t.children.all isFloatNumber then do
    return .number (← evaluate t [])
  else return t

/-- `simplify`: the per-class `simplify` methods.  Each operator/function
class first runs `Function.simplify` (simplify the children, then the
constant-folding step `functionSimplifyStep`), returns immediately when
that folded to a `Number`, and otherwise applies its identity rewrites to
the simplified children.  Leaves return themselves. -/
def simplify : Node → Except EvalErr Node
  | .number v => .ok (.number v)
  | .var s => .ok (.var s)
  | .add x y => do
    let x' ← simplify x
    let y' ← simplify y
    let s ← functionSimplifyStep (.add x' y')
    match s with
    | .number v => return .number v
    | _ =>
      if nodeEq x' NUMBER0 then return y'
      else if nodeEq y' NUMBER0 then return x'
      else return .add x' y'
  | .sub x y => do
    let x' ← simplify x
    let y' ← simplify y
    let s ← functionSimplifyStep (.sub x' y')
    match s with
    | .number v => return .number v
    | _ =>
      if nodeEq x' NUMBER0 then return .neg y'
      else if nodeEq y' NUMBER0 then return x'
      else return .sub x' y'
  | .mul x y => do
    let x' ← simplify x
    let y' ← simplify y
    let s ← functionSimplifyStep (.mul x' y')
    match s with
    | .number v => return .number v
    | _ =>
      if nodeEq x' NUMBER0 || nodeEq y' NUMBER0 then return NUMBER0
      else if nodeEq x' NUMBER1 then return y'
      else if nodeEq y' NUMBER1 then return x'
      else return .mul x' y'
  | .div x y => do
    let x' ← simplify x
    let y' ← simplify y
    let s ← functionSimplifyStep (.div x' y')
    match s with
    | .number v => return .number v
    | _ =>
      if nodeEq x' NUMBER0 then return NUMBER0
      else if nodeEq y' NUMBER1 then return x'
      else if nodeEq x' y' then return NUMBER1
      else return .div x' y'
  | .pow x y => do
    let x' ← simplify x
    let y' ← simplify y
    let s ← functionSimplifyStep (.pow x' y')
    match s with
    | .number v => return .number v
    | _ =>
      if nodeEq x' NUMBER0 && !nodeEq y' NUMBER0 then return NUMBER0
      else if nodeEq y' NUMBER0 && !nodeEq x' NUMBER0 then return NUMBER1
      else if nodeEq x' NUMBER1 then return NUMBER1
      else if nodeEq y' NUMBER1 then return x'
      else return .pow x' y'
  | .neg x => do
    let x' ← simplify x
    let s ← functionSimplifyStep (.neg x')
    match s with
    | .number v => return .number v
    | _ =>
      if isNegNode x' then return negInner x'
      else if nodeEq x' NUMBER0 then return x'
      else return .neg x'
  | .ln x => do
    let x' ← simplify x
    let s ← functionSimplifyStep (.ln x')
    match s with
    | .number v => return .number v
    | _ =>
      if nodeEq x' NUMBER1 then return NUMBER0
      else if nodeEq x' (.var "E") then return NUMBER1
      else return .ln x'
  | .sin x => do
    let x' ← simplify x
    functionSimplifyStep (.sin x')
  | .cos x => do
    let x' ← simplify x
    functionSimplifyStep (.cos x')
  | .tan x => do
    let x' ← simplify x
    functionSimplifyStep (.tan x')
  | .sec x => do
    let x' ← simplify x
    functionSimplifyStep (.sec x')
  | .csc x => do
    let x' ← simplify x
    functionSimplifyStep (.csc x')
  | .cot x => do
    let x' ← simplify x
    functionSimplifyStep (.cot x')
  | .sqrt x => do
    let x' ← simplify x
    functionSimplifyStep (.sqrt x')
  | .abs x => do
    let x' ← simplify x
    functionSimplifyStep (.abs x')
  | .sign x => do
    let x' ← simplify x
    functionSimplifyStep (.sign x')
  | .arcsin x => do
    let x' ← simplify x
    functionSimplifyStep (.arcsin x')

/-- `Node.simplify` of the base class: rebuild the node with every child
simplified (`type(self)([child.simplify() for child in self.children])`);
this is what `super().simplify()` produces before the folding guard. -/
def nodeSimplifyChildren : Node → Except EvalErr Node
  | .number v => .ok (.number v)
  | .var s => .ok (.var s)
  | .add x y => do return .add (← simplify x) (← simplify y)
  | .sub x y => do return .sub (← simplify x) (← simplify y)
  | .mul x y => do return .mul (← simplify x) (← simplify y)
  | .div x y => do return .div (← simplify x) (← simplify y)
  | .pow x y => do return .pow (← simplify x) (← simplify y)
  | .neg x => do return .neg (← simplify x)
  | .ln x => do return .ln (← simplify x)
  | .sin x => do return .sin (← simplify x)
  | .cos x => do return .cos (← simplify x)
  | .tan x => do return .tan (← simplify x)
  | .sec x => do return .sec (← simplify x)
  | .csc x => do return .csc (← simplify x)
  | .cot x => do return .cot (← simplify x)
  | .sqrt x => do return .sqrt (← simplify x)
  | .abs x => do return .abs (← simplify x)
  | .sign x => do return .sign (← simplify x)
  | .arcsin x => do return .arcsin (← simplify x)

/-- `derivative`: the per-class `derivative` methods; every operator and
function rule wraps its result in `.simplify()`.  Note the source's
`Subtract.derivative` builds `Subtract([x'*y, y'*x])`, the quotient-rule
numerator, not `Subtract([x', y'])`. -/
def derivative : Node → String → Except EvalErr Node
  | .number _, _ => .ok NUMBER0
  | .var s, v => .ok (if s = v then NUMBER1 else NUMBER0)
  | .add x y, v => do
    let x' ← derivative x v
    let y' ← derivative y v
    simplify (.add x' y')
  | .sub x y, v => do
    let x' ← derivative x v
    let y' ← derivative y v
    simplify (.sub (.mul x' y) (.mul y' x))
  | .mul x y, v => do
    let x' ← derivative x v
    let y' ← derivative y v
    simplify (.add (.mul x' y) (.mul y' x))
  | .div x y, v => do
    let x' ← derivative x v
    let y' ← derivative y v
    simplify (.div (.sub (.mul x' y) (.mul y' x)) (.pow y NUMBER2))
  | .pow z y, v => do
    let y' ← derivative y v
    let z' ← derivative z v
    simplify (.mul (.pow z y) (.add (.mul y' (.ln z)) (.div (.mul z' y) z)))
  | .neg x, v => do
    let x' ← derivative x v
    simplify (.neg x')
  | .ln x, v => do
    let x' ← derivative x v
    simplify (.div x' x)
  | .sin x, v => do
    let x' ← derivative x v
    simplify (.mul (.cos x) x')
  | .cos x, v => do
    let x' ← derivative x v
    simplify (.mul (.neg (.sin x)) x')
  | .tan x, v => do
    let x' ← derivative x v
    simplify (.mul (.pow (.sec x) NUMBER2) x')
  | .sec x, v => do
    let x' ← derivative x v
    simplify (.mul (.mul (.sec x) (.tan x)) x')
  | .csc x, v => do
    let x' ← derivative x v
    simplify (.mul (.mul (.neg (.csc x)) (.cot x)) x')
  | .cot x, v => do
    let x' ← derivative x v
    simplify (.mul (.neg (.pow (.csc x) NUMBER2)) x')
  | .sqrt x, v => do
    let x' ← derivative x v
    simplify (.mul (.div NUMBER1 (.mul NUMBER2 (.sqrt x))) x')
  | .abs x, v => do
    let x' ← derivative x v
    simplify (.mul (.sign x) x')
  | .sign _, _ => .ok NUMBER0
  | .arcsin x, v => do
    let x' ← derivative x v
    simplify (.mul (.div NUMBER1 (.sqrt (.sub NUMBER1 (.pow x NUMBER2)))) x')

/-- Subclasses of `Operator` (the binary operators and `Negate`); the
parenthesization rules of `__str__` test `issubclass(type(child), Operator)`. -/
def Node.isOperator : Node → Bool
  | .add _ _ | .sub _ _ | .mul _ _ | .div _ _ | .pow _ _ | .neg _ => true
  | _ => false

/-- The class `precedence` attribute (`Negate.precedence` is the float
`2.5`); `0` is the `Operator` base-class default carried by non-operators. -/
def Node.precedence : Node → ℚ
  | .add _ _ => 1
  | .sub _ _ => 1
  | .mul _ _ => 2
  | .div _ _ => 2
  | .pow _ _ => 3
  | .neg _ => 5 / 2
  | _ => 0

/-- `str(symbol)` for a `Number` leaf.  Python renders a float as its
shortest round-tripping decimal; the rational model does not reproduce
that, so float rendering is left unmodelled (`none`). -/
def pyNumStr : PyNum → Option String
  | .i n => some (toString n)
  | .f _ => none

/-- The parenthesization decision of `BinaryOperator.__str__` for one side:
wrap iff the child is an `Operator` of strictly lower precedence, or of
equal precedence when the parent lacks the associativity flag for that
side. -/
def wrapSide (prec : ℚ) (assoc : Bool) (child : Node) (s : String) : String :=
  if child.isOperator && (decide (child.precedence < prec) ||
      (decide (child.precedence = prec) && !assoc)) then
    "(" ++ s ++ ")"
  else s

/-- `__str__`: `Leaf.__str__` for leaves, `PrefixOperator.__str__` for
`Negate` (wrap iff the child is an `Operator` of strictly lower
precedence), `BinaryOperator.__str__` for the binary operators (with
`str_spacing` `" "` on `Add`/`Subtract`), and the base `Node.__str__`
`symbol(child)` form for the unary functions. -/
def toStr : Node → Option String
  | .number v => pyNumStr v
  | .var s => some s
  | .add x y => do
    return wrapSide 1 true x (← toStr x) ++ " " ++ "+" ++ " " ++ wrapSide 1 true y (← toStr y)
  | .sub x y => do
    return wrapSide 1 true x (← toStr x) ++ " " ++ "-" ++ " " ++ wrapSide 1 false y (← toStr y)
  | .mul x y => do
    return wrapSide 2 true x (← toStr x) ++ "*" ++ wrapSide 2 true y (← toStr y)
  | .div x y => do
    return wrapSide 2 true x (← toStr x) ++ "/" ++ wrapSide 2 false y (← toStr y)
  | .pow x y => do
    return wrapSide 3 false x (← toStr x) ++ "^" ++ wrapSide 3 true y (← toStr y)
  | .neg x => do
    let s ← toStr x
    return if x.isOperator && decide (x.precedence < 5 / 2) then "-(" ++ s ++ ")"
      else "-" ++ s
  | .ln x => do return "ln(" ++ (← toStr x) ++ ")"
  | .sin x => do return "sin(" ++ (← toStr x) ++ ")"
  | .cos x => do return "cos(" ++ (← toStr x) ++ ")"
  | .tan x => do return "tan(" ++ (← toStr x) ++ ")"
  | .sec x => do return "sec(" ++ (← toStr x) ++ ")"
  | .csc x => do return "csc(" ++ (← toStr x) ++ ")"
  | .cot x => do return "cot(" ++ (← toStr x) ++ ")"
  | .sqrt x => do return "sqrt(" ++ (← toStr x) ++ ")"
  | .abs x => do return "abs(" ++ (← toStr x) ++ ")"
  | .sign x => do return "sign(" ++ (← toStr x) ++ ")"
  | .arcsin x => do return "arcsin(" ++ (← toStr x) ++ ")"

/-- Take a maximal run of decimal digits (used for `\d+` pieces). -/
def takeDigits : List Char → List Char × List Char
  | [] => ([], [])
  | c :: cs =>
    if c.isDigit then
      let (ds, rest) := takeDigits cs
      (c :: ds, rest)
    else ([], c :: cs)

/-- Take a maximal run of ASCII letters (`[A-Za-z]+`). -/
def takeAlpha : List Char → List Char × List Char
  | [] => ([], [])
  | c :: cs =>
    if c.isAlpha then
      let (ds, rest) := takeAlpha cs
      (c :: ds, rest)
    else ([], c :: cs)

/-- The single-character operator/parenthesis class `[\(\)\+\-\/\*\^]`. -/
def isOpChar (c : Char) : Bool :=
  c = '(' || c = ')' || c = '+' || c = '-' || c = '/' || c = '*' || c = '^'

/-- Worker for `tokenize`, with fuel (each step consumes at least one
character, so `length + 1` fuel always suffices). -/
def tokenizeAux : Nat → List Char → List String
  | 0, _ => []
  | _, [] => []
  | fuel + 1, c :: cs =>
    if isOpChar c then String.mk [c] :: tokenizeAux fuel cs
    else if c.isDigit then
      let (ds, rest) := takeDigits (c :: cs)
      match rest with
      | '.' :: rest2 =>
        let (fs, rest3) := takeDigits rest2
        String.mk (ds ++ '.' :: fs) :: tokenizeAux fuel rest3
      | _ => String.mk ds :: tokenizeAux fuel rest
    else if c = '.' then
      match cs with
      | d :: _ =>
        if d.isDigit then
          let (fs, rest) := takeDigits cs
          String.mk ('.' :: fs) :: tokenizeAux fuel rest
        else tokenizeAux fuel cs
      | [] => []
    else if c.isAlpha then
      let (ds, rest) := takeAlpha (c :: cs)
      String.mk ds :: tokenizeAux fuel rest
    else tokenizeAux fuel cs

/-- `tokenize`: `re.findall` over the alternation of the operator class,
the number pattern `\d+(?:\.\d*)?|\.\d+` and the name pattern
`[A-Za-z]+`; characters matching none of them are silently skipped. -/
def tokenize (s : String) : List String :=
  tokenizeAux (s.length + 1) s.toList

/-- Parse-time failures.  `mismatchedParens`, `unaryFnParens` and
`missingFirstArg` are the three `assert` messages in `parse_partial`;
`syntaxError` is `parse_primitive`'s `raise SyntaxError`; `valueError`
is `float(token)` failing after `re.match` accepted a prefix;
`indexError` is an out-of-range `tokens[index]`; `outOfFuel` is the
model's recursion bound (never hit by a terminating Python run given
sufficient fuel). -/
inductive ParseErr where
  | mismatchedParens
  | unaryFnParens
  | missingFirstArg
  | syntaxError
  | valueError
  | indexError
  | outOfFuel
deriving DecidableEq, Repr

/-- The precedence/associativity data a limiting operator carries
(`precedence`, `is_left_associative`, `is_right_associative` class
attributes). -/
structure OpSpec where
  prec : ℚ
  isLeftAssoc : Bool
  isRightAssoc : Bool
deriving DecidableEq, Repr

/-- The `Operator` base class: precedence 0, left-associative. -/
def baseSpec : OpSpec := ⟨0, true, false⟩

/-- `Negate`: precedence 2.5, left-associative. -/
def negSpec : OpSpec := ⟨5 / 2, true, false⟩

/-- The five binary-operator classes. -/
inductive BinKind where
  | addK | subK | mulK | divK | powK
deriving DecidableEq, Repr

def BinKind.spec : BinKind → OpSpec
  | .addK => ⟨1, true, true⟩
  | .subK => ⟨1, true, false⟩
  | .mulK => ⟨2, true, true⟩
  | .divK => ⟨2, true, false⟩
  | .powK => ⟨3, false, true⟩

def BinKind.build : BinKind → Node → Node → Node
  | .addK => .add
  | .subK => .sub
  | .mulK => .mul
  | .divK => .div
  | .powK => .pow

/-- `binary_operators_dict`. -/
def binOfToken : String → Option BinKind
  | "+" => some .addK
  | "-" => some .subK
  | "*" => some .mulK
  | "/" => some .divK
  | "^" => some .powK
  | _ => none

/-- The eleven unary-function classes. -/
inductive UnKind where
  | lnK | sinK | cosK | tanK | secK | cscK | cotK | sqrtK | absK | signK | arcsinK
deriving DecidableEq, Repr

def UnKind.build : UnKind → Node → Node
  | .lnK => .ln
  | .sinK => .sin
  | .cosK => .cos
  | .tanK => .tan
  | .secK => .sec
  | .cscK => .csc
  | .cotK => .cot
  | .sqrtK => .sqrt
  | .absK => .abs
  | .signK => .sign
  | .arcsinK => .arcsin

/-- `unary_functions_dict`. -/
def unOfToken : String → Option UnKind
  | "ln" => some .lnK
  | "sin" => some .sinK
  | "cos" => some .cosK
  | "tan" => some .tanK
  | "sec" => some .secK
  | "csc" => some .cscK
  | "cot" => some .cotK
  | "sqrt" => some .sqrtK
  | "abs" => some .absK
  | "sign" => some .signK
  | "arcsin" => some .arcsinK
  | _ => none

/-- What `parse_primitive` can return: a finished leaf node, or one of
the `Function` classes awaiting construction. -/
inductive Prim where
  | nodeP (n : Node)
  | unP (k : UnKind)
  | negP
  | binP (k : BinKind)
deriving DecidableEq, Repr

/-- `re.match(NUMBER_REGEXP, token)`: the token starts with a digit, or
with `.` followed by a digit (`re.match` anchors at the start only). -/
def startsNumberTok (t : String) : Bool :=
  match t.toList with
  | [] => false
  | c :: rest =>
    c.isDigit || (c = '.' && match rest with
      | d :: _ => d.isDigit
      | [] => false)

def natOfDigits (cs : List Char) : Nat :=
  cs.foldl (fun acc c => 10 * acc + (c.toNat - '0'.toNat)) 0

/-- `int(token)`: succeeds on a nonempty all-digit token. -/
def intLit? (t : String) : Option Int :=
  let cs := t.toList
  if cs ≠ [] ∧ cs.all Char.isDigit then some (natOfDigits cs) else none

/-- `float(token)`: the exact rational value of a decimal literal of the
forms `digits`, `digits.`, `digits.digits`, `.digits`. -/
def floatLit? (t : String) : Option ℚ :=
  let (ip, rest) := takeDigits t.toList
  match rest with
  | [] => if ip ≠ [] then some (natOfDigits ip : ℚ) else none
  | '.' :: fp =>
    if fp.all Char.isDigit ∧ (ip ≠ [] ∨ fp ≠ []) then
      some ((natOfDigits ip : ℚ) + (natOfDigits fp : ℚ) / (10 : ℚ) ^ fp.length)
    else none
  | _ => none

/-- `parse_primitive(token, has_previous)`, with its exact check order:
number first; prefix operator when there is no previous operand; binary
operator; prefix operator again as a fallback (dead for `-`, which the
binary table already catches); unary-function name or bare variable;
otherwise `SyntaxError`.  The prefix-operator dict holds only `"-"`. -/
def parsePrimitive (token : String) (hasPrev : Bool) : Except ParseErr Prim :=
  if startsNumberTok token then
    match intLit? token with
    | some n => .ok (.nodeP (.number (.i n)))
    | none =>
      match floatLit? token with
      | some q => .ok (.nodeP (.number (.f q)))
      | none => .error .valueError
  else if !hasPrev && token = "-" then .ok .negP
  else
    match binOfToken token with
    | some k => .ok (.binP k)
    | none =>
      if hasPrev && token = "-" then .ok .negP
      else
        match token.toList with
        | c :: _ =>
          if c.isAlpha then
            match unOfToken token with
            | some k => .ok (.unP k)
            | none => .ok (.nodeP (.var token))
          else .error .syntaxError
        | [] => .error .syntaxError

/-- `tokens[index]`, raising `IndexError` when out of range. -/
def getTok (tokens : List String) (i : Nat) : Except ParseErr String :=
  match tokens.get? i with
  | some t => .ok t
  | none => .error .indexError

/-- `tokens.insert(i, a)` (Python list insertion; `i` is always in range
where the parser uses it). -/
def insertAt (tokens : List String) (i : Nat) (a : String) : List String :=
  tokens.take i ++ a :: tokens.drop i

/-- The two stages of one `parse_partial` invocation: `atP` is the entry
(parse the primitive or group at `index`), `contP` the trailing
precedence-climbing continuation over the node just built.  Folding the
two mutually recursive stages into one fuel-indexed function keeps the
recursion structural, so that the model computes by reduction. -/
inductive ParseCall where
  | atP (tokens : List String) (index : Nat) (limiting : OpSpec) (previous : Option Node)
  | contP (tokens : List String) (newIndex : Nat) (limiting : OpSpec) (parsed : Node)

/-- `parse_partial(tokens, index, limiting_operator, previous)` (both of
its stages).  Returns the parsed node, the next index, and the token
list — which grows when implicit multiplication inserts a `"*"`. -/
def parseGo : Nat → ParseCall → Except ParseErr (Node × Nat × List String)
  | 0, _ => .error .outOfFuel
  | fuel + 1, .atP tokens index limiting previous => do
    let token ← getTok tokens index
    if token = "(" then
      -- Subexpression parsing
      let (inner, ni, tokens) ← parseGo fuel (.atP tokens (index + 1) baseSpec none)
      if tokens.get? ni = some ")" then
        parseGo fuel (.contP tokens (ni + 1) limiting inner)
      else .error .mismatchedParens
    else
      match ← parsePrimitive token previous.isSome with
      | .nodeP n => parseGo fuel (.contP tokens (index + 1) limiting n)
      | .unP k =>
        -- Unary function: explicit parenthesized call required
        if tokens.get? (index + 1) = some "(" then
          let (arg, ni, tokens) ← parseGo fuel (.atP tokens (index + 2) baseSpec none)
          if tokens.get? ni = some ")" then
            parseGo fuel (.contP tokens (ni + 1) limiting (k.build arg))
          else .error .mismatchedParens
        else .error .unaryFnParens
      | .negP =>
        -- Prefix operator: parse the operand with itself as the limit
        let (arg, ni, tokens) ← parseGo fuel (.atP tokens (index + 1) negSpec none)
        parseGo fuel (.contP tokens ni limiting (.neg arg))
      | .binP k =>
        -- Binary operator: needs a previous operand
        match previous with
        | none => .error .missingFirstArg
        | some prev =>
          let (rhs, ni, tokens) ← parseGo fuel (.atP tokens (index + 1) k.spec (some prev))
          parseGo fuel (.contP tokens ni limiting (k.build prev rhs))
  | fuel + 1, .contP tokens newIndex limiting parsed =>
    -- Peek at the next token; when absent or ")" return, otherwise
    -- classify it, insert an implicit "*" when it is not a binary
    -- operator, and keep climbing right while precedence allows.
    match tokens.get? newIndex with
    | none => .ok (parsed, newIndex, tokens)
    | some t =>
      if t = ")" then .ok (parsed, newIndex, tokens)
      else do
        let nextOp ← if t = "(" then pure none else some <$> parsePrimitive t true
        let (tokens, spec) :=
          match nextOp with
          | some (.binP k) => (tokens, k.spec)
          | _ => (insertAt tokens newIndex "*", BinKind.mulK.spec)
        if decide (limiting.prec < spec.prec) ||
            (spec.isRightAssoc && !spec.isLeftAssoc && decide (spec.prec = limiting.prec)) then
          parseGo fuel (.atP tokens newIndex limiting (some parsed))
        else .ok (parsed, newIndex, tokens)

/-- The `while index < len(tokens)` loop of `parse`, threading each
returned node as the next `previous`. -/
def parseLoop : Nat → List String → Nat → Option Node →
    Except ParseErr (Option Node × List String)
  | 0, _, _, _ => .error .outOfFuel
  | fuel + 1, tokens, index, previous =>
    if index < tokens.length then do
      let (n, ni, tokens) ←
        parseGo ((tokens.length + 2) * (tokens.length + 2)) (.atP tokens index baseSpec previous)
      parseLoop fuel tokens ni (some n)
    else .ok (previous, tokens)

/-- `parse(tokens)`, also returning the final token list (the Python
function mutates the caller's list in place). -/
def parseToks (tokens : List String) : Except ParseErr (Option Node × List String) :=
  parseLoop (2 * tokens.length + 4) tokens 0 none

/-- `parse(tokens)`: the parse result alone (`None` on an empty list). -/
def parse (tokens : List String) : Except ParseErr (Option Node) :=
  (parseToks tokens).map Prod.fst

/-- Operator/function nodes: every class below `Function` (everything
except the two leaf classes). -/
def isOpFn : Node → Bool
  | .number _ => false
  | .var _ => false
  | _ => true

/-- Trees containing no `Subtract` node. -/
def noSub : Node → Bool
  | .number _ => true
  | .var _ => true
  | .sub _ _ => false
  | .add x y | .mul x y | .div x y | .pow x y => noSub x && noSub y
  | .neg x | .ln x | .sin x | .cos x | .tan x | .sec x | .csc x | .cot x
  | .sqrt x | .abs x | .sign x | .arcsin x => noSub x

/-- The tower of `Negate` nodes at the root of a tree: the tree itself,
and, below each root `Negate`, its child's tower. -/
def negParts : Node → List Node
  | .neg z => Node.neg z :: negParts z
  | t => [t]

/-- The invariant preserved by `simplify` on Subtract-free trees: the
result is a `simplify` fixpoint, and so is every member of the `Negate`
tower at its root (the cancellation `-(-x) → x` returns the child of a
root `Negate`, so that child must itself be a fixpoint). -/
def Good (t : Node) : Prop := ∀ s ∈ negParts t, simplify s = .ok s

/-- Modelled from the spec: "a child is wrapped in parentheses iff the
child is an operator of lower precedence than its parent, or of equal
precedence with an associativity mismatch on that side".  The parent's
precedence and its associativity flag for the side in question are the
parameters. -/
def specWraps (parentPrec : ℚ) (assocOnSide : Bool) (child : Node) : Bool :=
  child.isOperator &&
    (decide (child.precedence < parentPrec) ||
      (decide (child.precedence = parentPrec) && !assocOnSide))

/-- The `symbol` class attribute of each binary-operator class. -/
def BinKind.sym : BinKind → String
  | .addK => "+"
  | .subK => "-"
  | .mulK => "*"
  | .divK => "/"
  | .powK => "^"

/-- The `str_spacing` class attribute (`" "` on `Add` and `Subtract`). -/
def BinKind.spacing : BinKind → String
  | .addK => " "
  | .subK => " "
  | _ => ""

theorem exceptBind_ok {ε α β : Type} (a : α) (g : α → Except ε β) :
    (Except.ok a >>= g) = g a := rfl

theorem exceptBind_error {ε α β : Type} (e : ε) (g : α → Except ε β) :
    ((Except.error e : Except ε α) >>= g) = .error e := rfl

theorem exceptPure {ε α : Type} (a : α) : (pure a : Except ε α) = .ok a := rfl

theorem exceptBind_pure {ε α : Type} (m : Except ε α) : m >>= pure = m := by
  cases m <;> rfl

/-- Constant folding for a one-child `Function` class: when the
simplified child is a float `Number`, `simplify` returns
`Number(evaluate)` of the child-simplified node (`post` is the identity
rewriting the class performs after `Function.simplify`, which every
class passes a folded `Number` through unchanged). -/
theorem fold_unary (build : Node → Node) (post : Node → Node → Except EvalErr Node)
    (hsimp : ∀ x, simplify (build x) = (do
      let x' ← simplify x
      let s ← functionSimplifyStep (build x')
      post x' s))
    (hpost : ∀ x' v, post x' (.number v) = .ok (.number v))
    (hns : ∀ x, nodeSimplifyChildren (build x) = (do
      let x' ← simplify x
      pure (build x')))
    (x t' : Node)
    (h2 : nodeSimplifyChildren (build x) = .ok t')
    (h3 : t'.children.all isFloatNumber = true) :
    simplify (build x) = Except.map Node.number (evaluate t' []) := by
  rw [hns] at h2
  cases hx : simplify x with
  | error e => rw [hx, exceptBind_error] at h2; exact absurd h2 (by simp)
  | ok x' =>
    rw [hx, exceptBind_ok, exceptPure] at h2
    injection h2 with h2
    subst h2
    rw [hsimp, hx, exceptBind_ok]
    simp only [functionSimplifyStep, h3, if_true]
    cases hev : evaluate (build x') [] with
    | error e => simp [hev, exceptBind_error, Except.map]
    | ok v => simp [hev, exceptBind_ok, exceptPure, hpost, Except.map]

/-- Constant folding for a two-child `Function` class, as `fold_unary`. -/
theorem fold_binary (build : Node → Node → Node)
    (post : Node → Node → Node → Except EvalErr Node)
    (hsimp : ∀ x y, simplify (build x y) = (do
      let x' ← simplify x
      let y' ← simplify y
      let s ← functionSimplifyStep (build x' y')
      post x' y' s))
    (hpost : ∀ x' y' v, post x' y' (.number v) = .ok (.number v))
    (hns : ∀ x y, nodeSimplifyChildren (build x y) = (do
      let x' ← simplify x
      let y' ← simplify y
      pure (build x' y')))
    (x y t' : Node)
    (h2 : nodeSimplifyChildren (build x y) = .ok t')
    (h3 : t'.children.all isFloatNumber = true) :
    simplify (build x y) = Except.map Node.number (evaluate t' []) := by
  rw [hns] at h2
  cases hx : simplify x with
  | error e => rw [hx, exceptBind_error] at h2; exact absurd h2 (by simp)
  | ok x' =>
    cases hy : simplify y with
    | error e => rw [hx, hy, exceptBind_ok, exceptBind_error] at h2; exact absurd h2 (by simp)
    | ok y' =>
      rw [hx, hy, exceptBind_ok, exceptBind_ok, exceptPure] at h2
      injection h2 with h2
      subst h2
      rw [hsimp, hx, hy, exceptBind_ok, exceptBind_ok]
      simp only [functionSimplifyStep, h3, if_true]
      cases hev : evaluate (build x' y') [] with
      | error e => simp [hev, exceptBind_error, Except.map]
      | ok v => simp [hev, exceptBind_ok, exceptPure, hpost, Except.map]

/-- Claim C2, amended: constant folding happens exactly when every
simplified child is a float (`isinstance(child.symbol, float)`) numeric
leaf; then `simplify` returns the `Number` obtained by evaluating the
child-simplified node with an empty environment (and propagates the
exception when that evaluation raises).  Integer numeric leaves do not
trigger the fold (see the counterexample). -/
theorem C2_float_children_constant_fold (t t' : Node)
    (h1 : isOpFn t = true)
    (h2 : nodeSimplifyChildren t = .ok t')
    (h3 : t'.children.all isFloatNumber = true) :
    simplify t = Except.map Node.number (evaluate t' []) := by
  cases t with
  | number v => exact absurd h1 (by simp [isOpFn])
  | var s => exact absurd h1 (by simp [isOpFn])
  | add x y =>
    exact fold_binary Node.add
      (fun x' y' s => match s with
        | .number v => pure (.number v)
        | _ =>
          if nodeEq x' NUMBER0 then pure y'
          else if nodeEq y' NUMBER0 then pure x'
          else pure (.add x' y'))
      (fun _ _ => rfl) (fun _ _ _ => rfl) (fun _ _ => rfl) x y t' h2 h3
  | sub x y =>
    exact fold_binary Node.sub
      (fun x' y' s => match s with
        | .number v => pure (.number v)
        | _ =>
          if nodeEq x' NUMBER0 then pure (.neg y')
          else if nodeEq y' NUMBER0 then pure x'
          else pure (.sub x' y'))
      (fun _ _ => rfl) (fun _ _ _ => rfl) (fun _ _ => rfl) x y t' h2 h3
  | mul x y =>
    exact fold_binary Node.mul
      (fun x' y' s => match s with
        | .number v => pure (.number v)
        | _ =>
          if nodeEq x' NUMBER0 || nodeEq y' NUMBER0 then pure NUMBER0
          else if nodeEq x' NUMBER1 then pure y'
          else if nodeEq y' NUMBER1 then pure x'
          else pure (.mul x' y'))
      (fun _ _ => rfl) (fun _ _ _ => rfl) (fun _ _ => rfl) x y t' h2 h3
  | div x y =>
    exact fold_binary Node.div
      (fun x' y' s => match s with
        | .number v => pure (.number v)
        | _ =>
          if nodeEq x' NUMBER0 then pure NUMBER0
          else if nodeEq y' NUMBER1 then pure x'
          else if nodeEq x' y' then pure NUMBER1
          else pure (.div x' y'))
      (fun _ _ => rfl) (fun _ _ _ => rfl) (fun _ _ => rfl) x y t' h2 h3
  | pow x y =>
    exact fold_binary Node.pow
      (fun x' y' s => match s with
        | .number v => pure (.number v)
        | _ =>
          if nodeEq x' NUMBER0 && !nodeEq y' NUMBER0 then pure NUMBER0
          else if nodeEq y' NUMBER0 && !nodeEq x' NUMBER0 then pure NUMBER1
          else if nodeEq x' NUMBER1 then pure NUMBER1
          else if nodeEq y' NUMBER1 then pure x'
          else pure (.pow x' y'))
      (fun _ _ => rfl) (fun _ _ _ => rfl) (fun _ _ => rfl) x y t' h2 h3
  | neg x =>
    exact fold_unary Node.neg
      (fun x' s => match s with
        | .number v => pure (.number v)
        | _ =>
          if isNegNode x' then pure (negInner x')
          else if nodeEq x' NUMBER0 then pure x'
          else pure (.neg x'))
      (fun _ => rfl) (fun _ _ => rfl) (fun _ => rfl) x t' h2 h3
  | ln x =>
    exact fold_unary Node.ln
      (fun x' s => match s with
        | .number v => pure (.number v)
        | _ =>
          if nodeEq x' NUMBER1 then pure NUMBER0
          else if nodeEq x' (.var "E") then pure NUMBER1
          else pure (.ln x'))
      (fun _ => rfl) (fun _ _ => rfl) (fun _ => rfl) x t' h2 h3
  | sin x =>
    exact fold_unary Node.sin (fun _ s => pure s)
      (fun x => by simp only [simplify, exceptBind_pure])
      (fun _ _ => rfl) (fun _ => rfl) x t' h2 h3
  | cos x =>
    exact fold_unary Node.cos (fun _ s => pure s)
      (fun x => by simp only [simplify, exceptBind_pure])
      (fun _ _ => rfl) (fun _ => rfl) x t' h2 h3
  | tan x =>
    exact fold_unary Node.tan (fun _ s => pure s)
      (fun x => by simp only [simplify, exceptBind_pure])
      (fun _ _ => rfl) (fun _ => rfl) x t' h2 h3
  | sec x =>
    exact fold_unary Node.sec (fun _ s => pure s)
      (fun x => by simp only [simplify, exceptBind_pure])
      (fun _ _ => rfl) (fun _ => rfl) x t' h2 h3
  | csc x =>
    exact fold_unary Node.csc (fun _ s => pure s)
      (fun x => by simp only [simplify, exceptBind_pure])
      (fun _ _ => rfl) (fun _ => rfl) x t' h2 h3
  | cot x =>
    exact fold_unary Node.cot (fun _ s => pure s)
      (fun x => by simp only [simplify, exceptBind_pure])
      (fun _ _ => rfl) (fun _ => rfl) x t' h2 h3
  | sqrt x =>
    exact fold_unary Node.sqrt (fun _ s => pure s)
      (fun x => by simp only [simplify, exceptBind_pure])
      (fun _ _ => rfl) (fun _ => rfl) x t' h2 h3
  | abs x =>
    exact fold_unary Node.abs (fun _ s => pure s)
      (fun x => by simp only [simplify, exceptBind_pure])
      (fun _ _ => rfl) (fun _ => rfl) x t' h2 h3
  | sign x =>
    exact fold_unary Node.sign (fun _ s => pure s)
      (fun x => by simp only [simplify, exceptBind_pure])
      (fun _ _ => rfl) (fun _ => rfl) x t' h2 h3
  | arcsin x =>
    exact fold_unary Node.arcsin (fun _ s => pure s)
      (fun x => by simp only [simplify, exceptBind_pure])
      (fun _ _ => rfl) (fun _ => rfl) x t' h2 h3

/-- Witness for the amended C2: `Multiply([Number(2.0), Number(3.0)])`
folds to `Number(6.0)`. -/
theorem C2_float_children_constant_fold_witness :
    isOpFn (.mul (.number (.f 2)) (.number (.f 3))) = true ∧
    nodeSimplifyChildren (.mul (.number (.f 2)) (.number (.f 3))) =
      .ok (.mul (.number (.f 2)) (.number (.f 3))) ∧
    (Node.mul (.number (.f 2)) (.number (.f 3))).children.all isFloatNumber = true ∧
    simplify (.mul (.number (.f 2)) (.number (.f 3))) =
      Except.map Node.number (evaluate (.mul (.number (.f 2)) (.number (.f 3))) []) ∧
    Except.map Node.number (evaluate (.mul (.number (.f 2)) (.number (.f 3))) []) =
      .ok (.number (.f 6)) :=
  ⟨rfl, rfl, rfl,
   C2_float_children_constant_fold _ _ rfl rfl rfl, by
    simp only [evaluate, pyMul, PyNum.toQ, Except.map, exceptBind_ok, exceptPure]
    norm_num⟩

/-- Claim C1: `Subtract.derivative` does not distribute the derivative
over the two sides.  On `Subtract([Variable("x"), Number(2)])` with
respect to `"x"`, the code's rule
`Subtract([Multiply([x', y]), Multiply([y', x])]).simplify()` (the
quotient-rule numerator, a slip) yields `Number(2)`, while the claimed
simplified `Subtract([derivative(f), derivative(g)])` yields
`Number(1)`. -/
theorem C1_subtract_derivative_uses_product_rule :
    derivative (.sub (.var "x") (.number (.i 2))) "x" = .ok (.number (.i 2)) ∧
    (do
      let f' ← derivative (.var "x") "x"
      let g' ← derivative (.number (.i 2)) "x"
      simplify (.sub f' g')) = .ok (.number (.i 1)) ∧
    (Node.number (.i 2)) ≠ .number (.i 1) :=
  ⟨rfl, rfl, by decide⟩

/-- Claim C2, counterexample: the constant-folding guard in
`Function.simplify` tests `isinstance(child.symbol, float)`, so integer
numeric leaves are not folded: `Add([Number(2), Number(3)])` simplifies
to itself, not to the `Number(5)` the evaluation produces. -/
theorem C2_integer_children_not_folded :
    simplify (.add (.number (.i 2)) (.number (.i 3))) =
      .ok (.add (.number (.i 2)) (.number (.i 3))) ∧
    evaluate (.add (.number (.i 2)) (.number (.i 3))) [] = .ok (.i 5) ∧
    (Node.add (.number (.i 2)) (.number (.i 3))) ≠ .number (.i 5) :=
  ⟨rfl, rfl, by decide⟩

/-- Claim C3, counterexample: `simplify` is not idempotent.
`Subtract.simplify` rewrites `0 - y` to the unsimplified `Negate([y])`,
so `Subtract([Number(0), Number(0)])` simplifies to `Negate([Number(0)])`,
which a second `simplify` pass reduces further to `Number(0)`. -/
theorem C3_simplify_not_idempotent :
    simplify (.sub (.number (.i 0)) (.number (.i 0))) = .ok (.neg (.number (.i 0))) ∧
    simplify (.neg (.number (.i 0))) = .ok (.number (.i 0)) ∧
    (Node.neg (.number (.i 0))) ≠ .number (.i 0) :=
  ⟨rfl, rfl, by decide⟩

/-- Claim C4, counterexample: `simplify(derivative(parse(tokenize("x^2")),
"x"))` does not render as `"2*x"`.  The logarithmic-differentiation rule
of `Power.derivative` produces `Multiply([Power([x, 2]), Divide([2, x])])`
(no algebraic cancellation and no folding of the integer literals), which
renders as `"x^2*2/x"`. -/
theorem C4_x_sq_derivative_not_2x :
    parse (tokenize "x^2") = .ok (some (.pow (.var "x") (.number (.i 2)))) ∧
    derivative (.pow (.var "x") (.number (.i 2))) "x" =
      .ok (.mul (.pow (.var "x") (.number (.i 2))) (.div (.number (.i 2)) (.var "x"))) ∧
    simplify (.mul (.pow (.var "x") (.number (.i 2))) (.div (.number (.i 2)) (.var "x"))) =
      .ok (.mul (.pow (.var "x") (.number (.i 2))) (.div (.number (.i 2)) (.var "x"))) ∧
    toStr (.mul (.pow (.var "x") (.number (.i 2))) (.div (.number (.i 2)) (.var "x"))) ≠
      some "2*x" :=
  ⟨rfl, rfl, rfl, by decide⟩

/-- Claim C4, amended: the pipeline
`simplify(derivative(parse(tokenize("x^2")), "x"))` renders via
`__str__` as `"x^2*2/x"`. -/
theorem C4_x_sq_derivative_renders :
    parse (tokenize "x^2") = .ok (some (.pow (.var "x") (.number (.i 2)))) ∧
    derivative (.pow (.var "x") (.number (.i 2))) "x" =
      .ok (.mul (.pow (.var "x") (.number (.i 2))) (.div (.number (.i 2)) (.var "x"))) ∧
    simplify (.mul (.pow (.var "x") (.number (.i 2))) (.div (.number (.i 2)) (.var "x"))) =
      .ok (.mul (.pow (.var "x") (.number (.i 2))) (.div (.number (.i 2)) (.var "x"))) ∧
    toStr (.mul (.pow (.var "x") (.number (.i 2))) (.div (.number (.i 2)) (.var "x"))) =
      some "x^2*2/x" :=
  ⟨rfl, rfl, rfl, rfl⟩

/-- Claim C5: the dict merge `bindings | default_bindings` in
`Variable.evaluate` puts the built-ins on the right, so `Pi` and `E`
evaluate to the built-in constants whatever the caller binds. -/
theorem C5_builtins_override_bindings (b : Bindings) :
    evaluate (.var "Pi") b = .ok (.f piQ) ∧ evaluate (.var "E") b = .ok (.f eQ) :=
  ⟨rfl, rfl⟩

/-- Witness for C5 at bindings that do try to rebind `Pi` and `E`. -/
theorem C5_builtins_override_bindings_witness :
    evaluate (.var "Pi") [("Pi", .i 3)] = .ok (.f piQ) ∧
    evaluate (.var "E") [("E", .i 3)] = .ok (.f eQ) :=
  ⟨(C5_builtins_override_bindings [("Pi", .i 3)]).1,
   (C5_builtins_override_bindings [("E", .i 3)]).2⟩

/-- Claim C6, counterexample: the printer/parser round trip fails.
`Add` declares itself right-associative, so
`Add([x, Add([y, z])])` prints as `"x + y + z"` without parentheses, but
the parser only keeps climbing on equal precedence for exclusively
right-associative operators, so the text re-parses left-associated as
`Add([Add([x, y]), z])`, a different tree. -/
theorem C6_roundtrip_fails_right_nested_add :
    toStr (.add (.var "x") (.add (.var "y") (.var "z"))) = some "x + y + z" ∧
    parse (tokenize "x + y + z") =
      .ok (some (.add (.add (.var "x") (.var "y")) (.var "z"))) ∧
    (Node.add (.add (.var "x") (.var "y")) (.var "z")) ≠
      .add (.var "x") (.add (.var "y") (.var "z")) :=
  ⟨rfl, rfl, by decide⟩

/-- Claim C7: `"2^3^2"` parses with the power operator right-associative
and evaluates to the integer 512, not 64. -/
theorem C7_power_right_associative :
    parse (tokenize "2^3^2") =
      .ok (some (.pow (.number (.i 2)) (.pow (.number (.i 3)) (.number (.i 2))))) ∧
    evaluate (.pow (.number (.i 2)) (.pow (.number (.i 3)) (.number (.i 2)))) [] =
      .ok (.i 512) ∧
    (PyNum.i 512) ≠ .i 64 :=
  ⟨rfl, rfl, by decide⟩

/-- Claim C8: a `Variable` whose name is absent from the merged
environment (caller bindings plus the built-ins `Pi` and `E`) evaluates
to the unbound-variable error; in particular
`evaluate(parse(tokenize("y")), {})` fails with that error. -/
theorem C8_unbound_variable_error :
    (∀ (s : String) (b : Bindings), lookupMerged b s = none →
      evaluate (.var s) b = .error .unboundVariable) ∧
    parse (tokenize "y") = .ok (some (.var "y")) ∧
    evaluate (.var "y") [] = .error .unboundVariable := by
  refine ⟨fun s b h => ?_, rfl, rfl⟩
  simp only [evaluate, h]

/-- Witness for C8 at a concrete unbound name and nonempty bindings. -/
theorem C8_unbound_variable_error_witness :
    evaluate (.var "q") [("r", .i 1)] = .error .unboundVariable :=
  C8_unbound_variable_error.1 "q" [("r", .i 1)] rfl

/-- Claim C9: `parse` of an empty token sequence returns `None` without
raising, and tokenizing a string with no recognizable tokens yields the
empty sequence, so the caller gets no tree and no error. -/
theorem C9_empty_tokens_parse_none :
    parse ([] : List String) = .ok none ∧
    tokenize "@ %" = [] ∧
    parse (tokenize "@ %") = .ok none :=
  ⟨rfl, rfl, rfl⟩

/-- Claim C10: parsing `["2", "x"]` applies implicit multiplication and
inserts a `"*"` into the token list, so the list the caller passed in is
mutated to `["2", "*", "x"]`. -/
theorem C10_parse_inserts_implicit_mul :
    parseToks ["2", "x"] =
      .ok (some (.mul (.number (.i 2)) (.var "x")), ["2", "*", "x"]) ∧
    ["2", "*", "x"] ≠ ["2", "x"] :=
  ⟨rfl, by decide⟩

theorem good_head {t : Node} (h : Good t) : simplify t = .ok t := by
  apply h
  cases t <;> simp [negParts]

theorem good_single {t : Node} (hshape : negParts t = [t]) (h : simplify t = .ok t) :
    Good t := by
  intro s hs
  rw [hshape, List.mem_singleton] at hs
  subst hs
  exact h

theorem good_neg {z : Node} (h1 : simplify (.neg z) = .ok (.neg z)) (h2 : Good z) :
    Good (.neg z) := by
  intro s hs
  rw [show negParts (.neg z) = .neg z :: negParts z from rfl] at hs
  rcases List.mem_cons.1 hs with hs | hs
  · subst hs; exact h1
  · exact h2 s hs

theorem good_neg_child {z : Node} (h : Good (.neg z)) : Good z := by
  intro s hs
  refine h s ?_
  rw [show negParts (.neg z) = .neg z :: negParts z from rfl]
  exact List.mem_cons_of_mem _ hs

theorem good_fn1 (build : Node → Node)
    (hsimp : ∀ x, simplify (build x) = (do
      let x' ← simplify x
      functionSimplifyStep (build x')))
    (hshape : ∀ z, negParts (build z) = [build z])
    (x : Node) (ih : ∀ s, simplify x = .ok s → Good s)
    (s : Node) (h : simplify (build x) = .ok s) : Good s := by
  rw [hsimp] at h
  cases hx : simplify x with
  | error e => rw [hx, exceptBind_error] at h; exact absurd h (by simp)
  | ok x' =>
    rw [hx, exceptBind_ok] at h
    have hgx : Good x' := ih x' hx
    simp only [functionSimplifyStep] at h
    by_cases hf : (build x').children.all isFloatNumber = true
    · rw [if_pos hf] at h
      cases hev : evaluate (build x') [] with
      | error e => rw [hev, exceptBind_error] at h; exact absurd h (by simp)
      | ok v =>
        rw [hev, exceptBind_ok, exceptPure] at h
        injection h with h
        subst h
        exact good_single rfl rfl
    · rw [if_neg hf, exceptPure] at h
      injection h with h
      subst h
      refine good_single (hshape x') ?_
      rw [hsimp, good_head hgx, exceptBind_ok]
      simp only [functionSimplifyStep]
      rw [if_neg hf, exceptPure]

theorem simplify_good (t : Node) : noSub t = true → ∀ s, simplify t = .ok s → Good s := by
  induction t with
  | number v => intro _ s h; injection h with h; subst h; exact good_single rfl rfl
  | var q => intro _ s h; injection h with h; subst h; exact good_single rfl rfl
  | sub x y ihx ihy => intro ht; exact absurd ht (by simp [noSub])
  | add x y ihx ihy =>
    intro ht s h
    rw [noSub, Bool.and_eq_true] at ht
    obtain ⟨hnx, hny⟩ := ht
    simp only [simplify] at h
    cases hx : simplify x with
    | error e => rw [hx, exceptBind_error] at h; exact absurd h (by simp)
    | ok x' =>
    rw [hx, exceptBind_ok] at h
    cases hy : simplify y with
    | error e => rw [hy, exceptBind_error] at h; exact absurd h (by simp)
    | ok y' =>
    rw [hy, exceptBind_ok] at h
    have gx : Good x' := ihx hnx x' hx
    have gy : Good y' := ihy hny y' hy
    simp only [functionSimplifyStep] at h
    by_cases hf : (Node.add x' y').children.all isFloatNumber = true
    · rw [if_pos hf] at h
      cases hev : evaluate (.add x' y') [] with
      | error e => rw [hev, exceptBind_error, exceptBind_error] at h; exact absurd h (by simp)
      | ok v =>
        rw [hev, exceptBind_ok, exceptPure, exceptBind_ok] at h
        dsimp only at h
        injection h with h
        subst h
        exact good_single rfl rfl
    · rw [if_neg hf, exceptPure, exceptBind_ok] at h
      dsimp only at h
      by_cases hx0 : nodeEq x' NUMBER0 = true
      · rw [if_pos hx0] at h; injection h with h; subst h; exact gy
      · rw [if_neg hx0] at h
        by_cases hy0 : nodeEq y' NUMBER0 = true
        · rw [if_pos hy0] at h; injection h with h; subst h; exact gx
        · rw [if_neg hy0] at h
          injection h with h
          subst h
          refine good_single rfl ?_
          simp only [simplify, good_head gx, good_head gy, exceptBind_ok]
          simp only [functionSimplifyStep]
          rw [if_neg hf, exceptPure, exceptBind_ok]
          dsimp only
          rw [if_neg hx0, if_neg hy0]
  | mul x y ihx ihy =>
    intro ht s h
    rw [noSub, Bool.and_eq_true] at ht
    obtain ⟨hnx, hny⟩ := ht
    simp only [simplify] at h
    cases hx : simplify x with
    | error e => rw [hx, exceptBind_error] at h; exact absurd h (by simp)
    | ok x' =>
    rw [hx, exceptBind_ok] at h
    cases hy : simplify y with
    | error e => rw [hy, exceptBind_error] at h; exact absurd h (by simp)
    | ok y' =>
    rw [hy, exceptBind_ok] at h
    have gx : Good x' := ihx hnx x' hx
    have gy : Good y' := ihy hny y' hy
    simp only [functionSimplifyStep] at h
    by_cases hf : (Node.mul x' y').children.all isFloatNumber = true
    · rw [if_pos hf] at h
      cases hev : evaluate (.mul x' y') [] with
      | error e => rw [hev, exceptBind_error, exceptBind_error] at h; exact absurd h (by simp)
      | ok v =>
        rw [hev, exceptBind_ok, exceptPure, exceptBind_ok] at h
        dsimp only at h
        injection h with h
        subst h
        exact good_single rfl rfl
    · rw [if_neg hf, exceptPure, exceptBind_ok] at h
      dsimp only at h
      by_cases h0 : (nodeEq x' NUMBER0 || nodeEq y' NUMBER0) = true
      · rw [if_pos h0] at h; injection h with h; subst h; exact good_single rfl rfl
      · rw [if_neg h0] at h
        by_cases hx1 : nodeEq x' NUMBER1 = true
        · rw [if_pos hx1] at h; injection h with h; subst h; exact gy
        · rw [if_neg hx1] at h
          by_cases hy1 : nodeEq y' NUMBER1 = true
          · rw [if_pos hy1] at h; injection h with h; subst h; exact gx
          · rw [if_neg hy1] at h
            injection h with h
            subst h
            refine good_single rfl ?_
            simp only [simplify, good_head gx, good_head gy, exceptBind_ok]
            simp only [functionSimplifyStep]
            rw [if_neg hf, exceptPure, exceptBind_ok]
            dsimp only
            rw [if_neg h0, if_neg hx1, if_neg hy1]
  | div x y ihx ihy =>
    intro ht s h
    rw [noSub, Bool.and_eq_true] at ht
    obtain ⟨hnx, hny⟩ := ht
    simp only [simplify] at h
    cases hx : simplify x with
    | error e => rw [hx, exceptBind_error] at h; exact absurd h (by simp)
    | ok x' =>
    rw [hx, exceptBind_ok] at h
    cases hy : simplify y with
    | error e => rw [hy, exceptBind_error] at h; exact absurd h (by simp)
    | ok y' =>
    rw [hy, exceptBind_ok] at h
    have gx : Good x' := ihx hnx x' hx
    have gy : Good y' := ihy hny y' hy
    simp only [functionSimplifyStep] at h
    by_cases hf : (Node.div x' y').children.all isFloatNumber = true
    · rw [if_pos hf] at h
      cases hev : evaluate (.div x' y') [] with
      | error e => rw [hev, exceptBind_error, exceptBind_error] at h; exact absurd h (by simp)
      | ok v =>
        rw [hev, exceptBind_ok, exceptPure, exceptBind_ok] at h
        dsimp only at h
        injection h with h
        subst h
        exact good_single rfl rfl
    · rw [if_neg hf, exceptPure, exceptBind_ok] at h
      dsimp only at h
      by_cases h0 : nodeEq x' NUMBER0 = true
      · rw [if_pos h0] at h; injection h with h; subst h; exact good_single rfl rfl
      · rw [if_neg h0] at h
        by_cases hy1 : nodeEq y' NUMBER1 = true
        · rw [if_pos hy1] at h; injection h with h; subst h; exact gx
        · rw [if_neg hy1] at h
          by_cases hxy : nodeEq x' y' = true
          · rw [if_pos hxy] at h; injection h with h; subst h; exact good_single rfl rfl
          · rw [if_neg hxy] at h
            injection h with h
            subst h
            refine good_single rfl ?_
            simp only [simplify, good_head gx, good_head gy, exceptBind_ok]
            simp only [functionSimplifyStep]
            rw [if_neg hf, exceptPure, exceptBind_ok]
            dsimp only
            rw [if_neg h0, if_neg hy1, if_neg hxy]
  | pow x y ihx ihy =>
    intro ht s h
    rw [noSub, Bool.and_eq_true] at ht
    obtain ⟨hnx, hny⟩ := ht
    simp only [simplify] at h
    cases hx : simplify x with
    | error e => rw [hx, exceptBind_error] at h; exact absurd h (by simp)
    | ok x' =>
    rw [hx, exceptBind_ok] at h
    cases hy : simplify y with
    | error e => rw [hy, exceptBind_error] at h; exact absurd h (by simp)
    | ok y' =>
    rw [hy, exceptBind_ok] at h
    have gx : Good x' := ihx hnx x' hx
    have gy : Good y' := ihy hny y' hy
    simp only [functionSimplifyStep] at h
    by_cases hf : (Node.pow x' y').children.all isFloatNumber = true
    · rw [if_pos hf] at h
      cases hev : evaluate (.pow x' y') [] with
      | error e => rw [hev, exceptBind_error, exceptBind_error] at h; exact absurd h (by simp)
      | ok v =>
        rw [hev, exceptBind_ok, exceptPure, exceptBind_ok] at h
        dsimp only at h
        injection h with h
        subst h
        exact good_single rfl rfl
    · rw [if_neg hf, exceptPure, exceptBind_ok] at h
      dsimp only at h
      by_cases h1 : (nodeEq x' NUMBER0 && !nodeEq y' NUMBER0) = true
      · rw [if_pos h1] at h; injection h with h; subst h; exact good_single rfl rfl
      · rw [if_neg h1] at h
        by_cases h2 : (nodeEq y' NUMBER0 && !nodeEq x' NUMBER0) = true
        · rw [if_pos h2] at h; injection h with h; subst h; exact good_single rfl rfl
        · rw [if_neg h2] at h
          by_cases h3 : nodeEq x' NUMBER1 = true
          · rw [if_pos h3] at h; injection h with h; subst h; exact good_single rfl rfl
          · rw [if_neg h3] at h
            by_cases h4 : nodeEq y' NUMBER1 = true
            · rw [if_pos h4] at h; injection h with h; subst h; exact gx
            · rw [if_neg h4] at h
              injection h with h
              subst h
              refine good_single rfl ?_
              simp only [simplify, good_head gx, good_head gy, exceptBind_ok]
              simp only [functionSimplifyStep]
              rw [if_neg hf, exceptPure, exceptBind_ok]
              dsimp only
              rw [if_neg h1, if_neg h2, if_neg h3, if_neg h4]
  | neg x ihx =>
    intro ht s h
    rw [noSub] at ht
    simp only [simplify] at h
    cases hx : simplify x with
    | error e => rw [hx, exceptBind_error] at h; exact absurd h (by simp)
    | ok x' =>
    rw [hx, exceptBind_ok] at h
    have gx : Good x' := ihx ht x' hx
    simp only [functionSimplifyStep] at h
    by_cases hf : (Node.neg x').children.all isFloatNumber = true
    · rw [if_pos hf] at h
      cases hev : evaluate (.neg x') [] with
      | error e => rw [hev, exceptBind_error, exceptBind_error] at h; exact absurd h (by simp)
      | ok v =>
        rw [hev, exceptBind_ok, exceptPure, exceptBind_ok] at h
        dsimp only at h
        injection h with h
        subst h
        exact good_single rfl rfl
    · rw [if_neg hf, exceptPure, exceptBind_ok] at h
      dsimp only at h
      by_cases hn : isNegNode x' = true
      · rw [if_pos hn] at h
        obtain ⟨z, rfl⟩ : ∃ z, x' = .neg z := by
          cases x' <;> simp_all [isNegNode]
        simp only [negInner] at h
        injection h with h
        subst h
        exact good_neg_child gx
      · rw [if_neg hn] at h
        by_cases h0 : nodeEq x' NUMBER0 = true
        · rw [if_pos h0] at h; injection h with h; subst h; exact gx
        · rw [if_neg h0] at h
          injection h with h
          subst h
          refine good_neg ?_ gx
          simp only [simplify, good_head gx, exceptBind_ok]
          simp only [functionSimplifyStep]
          rw [if_neg hf, exceptPure, exceptBind_ok]
          dsimp only
          rw [if_neg hn, if_neg h0]
  | ln x ihx =>
    intro ht s h
    rw [noSub] at ht
    simp only [simplify] at h
    cases hx : simplify x with
    | error e => rw [hx, exceptBind_error] at h; exact absurd h (by simp)
    | ok x' =>
    rw [hx, exceptBind_ok] at h
    have gx : Good x' := ihx ht x' hx
    simp only [functionSimplifyStep] at h
    by_cases hf : (Node.ln x').children.all isFloatNumber = true
    · rw [if_pos hf] at h
      cases hev : evaluate (.ln x') [] with
      | error e => rw [hev, exceptBind_error, exceptBind_error] at h; exact absurd h (by simp)
      | ok v =>
        rw [hev, exceptBind_ok, exceptPure, exceptBind_ok] at h
        dsimp only at h
        injection h with h
        subst h
        exact good_single rfl rfl
    · rw [if_neg hf, exceptPure, exceptBind_ok] at h
      dsimp only at h
      by_cases h1 : nodeEq x' NUMBER1 = true
      · rw [if_pos h1] at h; injection h with h; subst h; exact good_single rfl rfl
      · rw [if_neg h1] at h
        by_cases h2 : nodeEq x' (.var "E") = true
        · rw [if_pos h2] at h; injection h with h; subst h; exact good_single rfl rfl
        · rw [if_neg h2] at h
          injection h with h
          subst h
          refine good_single rfl ?_
          simp only [simplify, good_head gx, exceptBind_ok]
          simp only [functionSimplifyStep]
          rw [if_neg hf, exceptPure, exceptBind_ok]
          dsimp only
          rw [if_neg h1, if_neg h2]
  | sin x ihx =>
    intro ht s h
    exact good_fn1 Node.sin (fun x => by simp only [simplify, exceptBind_pure]) (fun z => rfl)
      x (ihx (by simpa [noSub] using ht)) s h
  | cos x ihx =>
    intro ht s h
    exact good_fn1 Node.cos (fun x => by simp only [simplify, exceptBind_pure]) (fun z => rfl)
      x (ihx (by simpa [noSub] using ht)) s h
  | tan x ihx =>
    intro ht s h
    exact good_fn1 Node.tan (fun x => by simp only [simplify, exceptBind_pure]) (fun z => rfl)
      x (ihx (by simpa [noSub] using ht)) s h
  | sec x ihx =>
    intro ht s h
    exact good_fn1 Node.sec (fun x => by simp only [simplify, exceptBind_pure]) (fun z => rfl)
      x (ihx (by simpa [noSub] using ht)) s h
  | csc x ihx =>
    intro ht s h
    exact good_fn1 Node.csc (fun x => by simp only [simplify, exceptBind_pure]) (fun z => rfl)
      x (ihx (by simpa [noSub] using ht)) s h
  | cot x ihx =>
    intro ht s h
    exact good_fn1 Node.cot (fun x => by simp only [simplify, exceptBind_pure]) (fun z => rfl)
      x (ihx (by simpa [noSub] using ht)) s h
  | sqrt x ihx =>
    intro ht s h
    exact good_fn1 Node.sqrt (fun x => by simp only [simplify, exceptBind_pure]) (fun z => rfl)
      x (ihx (by simpa [noSub] using ht)) s h
  | abs x ihx =>
    intro ht s h
    exact good_fn1 Node.abs (fun x => by simp only [simplify, exceptBind_pure]) (fun z => rfl)
      x (ihx (by simpa [noSub] using ht)) s h
  | sign x ihx =>
    intro ht s h
    exact good_fn1 Node.sign (fun x => by simp only [simplify, exceptBind_pure]) (fun z => rfl)
      x (ihx (by simpa [noSub] using ht)) s h
  | arcsin x ihx =>
    intro ht s h
    exact good_fn1 Node.arcsin (fun x => by simp only [simplify, exceptBind_pure]) (fun z => rfl)
      x (ihx (by simpa [noSub] using ht)) s h



/-- Claim C3, amended: `simplify` is idempotent on every tree containing
no `Subtract` node: if `simplify t` returns `s`, then `simplify s`
returns `s` unchanged.  (The `0 - y` rewrite of `Subtract.simplify` is
the only rule that returns a node not in simplified form; see the
counterexample.) -/
theorem C3_simplify_idempotent_noSub (t s : Node)
    (hns : noSub t = true) (h : simplify t = .ok s) :
    simplify s = .ok s :=
  good_head (simplify_good t hns s h)

/-- Witness for the amended C3: double negation simplifies to its core,
which is a `simplify` fixpoint. -/
theorem C3_simplify_idempotent_noSub_witness :
    simplify (.neg (.neg (.var "x"))) = .ok (.var "x") ∧
    simplify (.var "x") = .ok (.var "x") :=
  ⟨rfl, C3_simplify_idempotent_noSub (.neg (.neg (.var "x"))) (.var "x") rfl rfl⟩

/-- Claim C6, amended: for every binary-operator node, `__str__` wraps a
child in parentheses exactly according to the spec's rule — iff the
child is an operator of lower precedence than the parent, or of equal
precedence with an associativity mismatch on that side (the parent's
own flag for that side).  This does not make the printer/parser round
trip hold in general: `Add`/`Multiply` carry the right-associativity
flag, so an equal-precedence right child is printed without parentheses
and re-parses left-associated (see the counterexample). -/
theorem C6_binary_wrapping_rule (k : BinKind) (x y : Node) (ls rs : String)
    (hx : toStr x = some ls) (hy : toStr y = some rs) :
    toStr (k.build x y) = some
      ((if specWraps k.spec.prec k.spec.isLeftAssoc x then "(" ++ ls ++ ")" else ls) ++
        k.spacing ++ k.sym ++ k.spacing ++
        (if specWraps k.spec.prec k.spec.isRightAssoc y then "(" ++ rs ++ ")" else rs)) := by
  have hw : ∀ (p : ℚ) (a : Bool) (c : Node) (s : String),
      wrapSide p a c s = if specWraps p a c then "(" ++ s ++ ")" else s :=
    fun _ _ _ _ => rfl
  cases k <;>
    simp [toStr, BinKind.build, BinKind.spec, BinKind.sym, BinKind.spacing, hx, hy, hw]

/-- Witness for the amended C6: `Subtract([a, Add([b, c])])` wraps its
equal-precedence right child (`Subtract` is not right-associative). -/
theorem C6_binary_wrapping_rule_witness :
    toStr (.sub (.var "a") (.add (.var "b") (.var "c"))) = some "a - (b + c)" := by
  have h := C6_binary_wrapping_rule .subK (.var "a") (.add (.var "b") (.var "c"))
    "a" "b + c" rfl rfl
  rw [show Node.sub (.var "a") (.add (.var "b") (.var "c")) =
    BinKind.build .subK (.var "a") (.add (.var "b") (.var "c")) from rfl, h]
  rfl

end Casson
